import Mathlib

/-!
Verification of the `mamood-llm-cost-estimator` core: the cost calculator
(`estimator.py`, `models.py`) and the pricing-catalog client
(`openrouter.py`).

Modelling conventions of the shallow embedding:
* Python `float` values are modelled as rationals (`ℚ`); Python `int` as `ℤ`.
  Floating-point special values (inf/nan) and rounding are outside the model.
* Python/JSON values reaching the normalizer are modelled by `PyVal`.
  A Python `str` is carried together with the outcomes of the external
  builtins `float(s)` and `int(s)` on it, since those parsers are part of
  the Python runtime, not of this repository.
* Stateful code (`OpenRouterClient`) is embedded by explicit state passing:
  `list_models` takes the current cache, the current clock reading
  (`time.time()`), and a fetch oracle standing for `_get_json` (either an
  `OpenRouterError` or the payload's fields), and returns the result, the
  new cache, and whether a remote fetch was attempted.
* String case-mapping (`str.lower`/`str.upper`) is modelled on ASCII,
  which covers every identifier the provider table distinguishes.
-/

/-- Embeds `TokenUsage` from `models.py`: three Python `int` fields. -/
structure TokenUsage where
  input_tokens : ℤ
  output_tokens : ℤ
  cached_input_tokens : ℤ := 0
deriving DecidableEq

/-- Embeds the derived property `TokenUsage.non_cached_input_tokens`:
`max(0, self.input_tokens - self.cached_input_tokens)`. -/
def TokenUsage.non_cached_input_tokens (u : TokenUsage) : ℤ :=
  max 0 (u.input_tokens - u.cached_input_tokens)

/-- Embeds `CostBreakdown` from `models.py` (monetary floats as `ℚ`). -/
structure CostBreakdown where
  model : String
  input_cost_usd : ℚ
  cached_input_cost_usd : ℚ
  output_cost_usd : ℚ
  total_cost_usd : ℚ
  currency : String := "USD"
deriving DecidableEq

/-- Embeds `estimate_cost` from `estimator.py`. -/
def estimate_cost (model : String) (usage : TokenUsage)
    (input_price_per_token_usd output_price_per_token_usd : ℚ)
    (cached_input_price_per_token_usd : Option ℚ := none) : CostBreakdown :=
  let cached_price :=
    match cached_input_price_per_token_usd with
    | some p => p
    | none => input_price_per_token_usd
  let input_cost := (usage.non_cached_input_tokens : ℚ) * input_price_per_token_usd
  let cached_input_cost := (usage.cached_input_tokens : ℚ) * cached_price
  let output_cost := (usage.output_tokens : ℚ) * output_price_per_token_usd
  let total := input_cost + cached_input_cost + output_cost
  { model := model
    input_cost_usd := input_cost
    cached_input_cost_usd := cached_input_cost
    output_cost_usd := output_cost
    total_cost_usd := total }

/-- C1: for every model string, usage and prices (cached price possibly
omitted), `estimate_cost` returns a breakdown whose input cost is
`non_cached_input_tokens * input_price`, whose cached-input cost is
`cached_input_tokens` times the supplied cached price (or the input price
when omitted), whose output cost is `output_tokens * output_price`, and
whose total is exactly the sum of the three components. -/
theorem estimate_cost_breakdown (model : String) (usage : TokenUsage)
    (ip op : ℚ) (cp : Option ℚ) :
    (estimate_cost model usage ip op cp).input_cost_usd
        = (usage.non_cached_input_tokens : ℚ) * ip ∧
    (estimate_cost model usage ip op cp).cached_input_cost_usd
        = (usage.cached_input_tokens : ℚ) * cp.getD ip ∧
    (estimate_cost model usage ip op cp).output_cost_usd
        = (usage.output_tokens : ℚ) * op ∧
    (estimate_cost model usage ip op cp).total_cost_usd
        = (estimate_cost model usage ip op cp).input_cost_usd
          + (estimate_cost model usage ip op cp).cached_input_cost_usd
          + (estimate_cost model usage ip op cp).output_cost_usd := by
  cases cp <;> exact ⟨rfl, rfl, rfl, rfl⟩

/-- C3: omitting the cached-input price gives the same breakdown as passing
the input price explicitly; in particular, with `input_tokens = 100`,
`cached_input_tokens = 100` and input price `0.00001`, the cached-input
cost is `100 * 0.00001`. -/
theorem estimate_cost_cached_default (model : String) (usage : TokenUsage)
    (ip op : ℚ) :
    estimate_cost model usage ip op none
        = estimate_cost model usage ip op (some ip) ∧
    ∀ (out : ℤ) (op' : ℚ),
      (estimate_cost model ⟨100, out, 100⟩ (1 / 100000) op' none).cached_input_cost_usd
          = 100 * (1 / 100000) := by
  refine ⟨rfl, fun out op' => ?_⟩
  norm_num [estimate_cost]

/-- C7: for every pair of integers (including `cached > input`),
`non_cached_input_tokens` is `max 0 (input_tokens - cached_input_tokens)`. -/
theorem non_cached_input_tokens_clamps (i o c : ℤ) :
    (TokenUsage.mk i o c).non_cached_input_tokens = max 0 (i - c) := rfl

/-- Models a Python value as produced by `json.loads` (JSON `null` becomes
Python `None`, modelled by `vnone`). A `str` carries its text together with
the outcomes of the Python builtins `float(s)` (`floatParse`) and `int(s)`
(`intParse`), which are external to this repository. Lists and dicts carry
their elements; a dict is an association list of string keys. -/
inductive PyVal where
  | vnone
  | vbool (b : Bool)
  | vint (n : ℤ)
  | vfloat (q : ℚ)
  | vstr (s : String) (floatParse : Option ℚ) (intParse : Option ℤ)
  | vlist (items : List PyVal)
  | vdict (fields : List (String × PyVal))

/-- Plain association-list lookup: whether a key is present in a dict and
with which value (first occurrence wins). -/
def rawGet : List (String × PyVal) → String → Option PyVal
  | [], _ => none
  | (k, v) :: rest, key => if k = key then some v else rawGet rest key

/-- Embeds Python `dict.get(key)`: `None` both when the key is missing and
when the stored value is `None`, so `vnone` collapses to `none`. -/
def pyGet (fs : List (String × PyVal)) (key : String) : Option PyVal :=
  match rawGet fs key with
  | some .vnone => none
  | r => r

/-- Embeds Python `dict.get(key, default)`: the default is used only when
the key is missing (a stored `None` is returned as `vnone`). -/
def pyGetD (fs : List (String × PyVal)) (key : String) (d : PyVal) : PyVal :=
  match rawGet fs key with
  | none => d
  | some v => v

/-- Embeds `OpenRouterClient._parse_price`: `None` gives `0.0`; `float(value)`
failures (`TypeError`/`ValueError`) give `0.0`; a negative parse gives `0.0`;
otherwise the parsed value (note `float(True) = 1.0`, `float(False) = 0.0`). -/
def parse_price (value : Option PyVal) : ℚ :=
  match value with
  | none => 0
  | some .vnone => 0
  | some (.vbool b) => if (if b then (1 : ℚ) else 0) < 0 then 0 else if b then 1 else 0
  | some (.vint n) => if (n : ℚ) < 0 then 0 else (n : ℚ)
  | some (.vfloat q) => if q < 0 then 0 else q
  | some (.vstr _ f _) =>
    match f with
    | none => 0
    | some q => if q < 0 then 0 else q
  | some (.vlist _) => 0
  | some (.vdict _) => 0

/-- Truncation toward zero, the behaviour of Python `int()` on a float. -/
def ratTrunc (q : ℚ) : ℤ := if 0 ≤ q then ⌊q⌋ else -⌊-q⌋

/-- Embeds `OpenRouterClient._parse_int`: `int(value)` failures give `0`,
otherwise `max(0, parsed)` (note `int(True) = 1`, `int` truncates floats). -/
def parse_int (value : Option PyVal) : ℤ :=
  match value with
  | none => 0
  | some .vnone => 0
  | some (.vbool b) => max 0 (if b then 1 else 0)
  | some (.vint n) => max 0 n
  | some (.vfloat q) => max 0 (ratTrunc q)
  | some (.vstr _ _ i) =>
    match i with
    | none => 0
    | some n => max 0 n
  | some (.vlist _) => 0
  | some (.vdict _) => 0

/-- ASCII case-lowering of a string, modelling Python `str.lower()` on the
identifiers this client distinguishes. -/
def pyLower (s : String) : String := ⟨s.data.map Char.toLower⟩

/-- Whitespace predicate of Python `str.strip()` (ASCII whitespace). -/
def pySpaceChar (c : Char) : Bool :=
  c == ' ' || c == '\t' || c == '\n' || c == '\r' || c == Char.ofNat 11 || c == Char.ofNat 12

/-- Embeds Python `str.strip()`: drop whitespace from both ends. -/
def pyStrip (s : String) : String :=
  ⟨((s.data.dropWhile pySpaceChar).reverse.dropWhile pySpaceChar).reverse⟩

/-- Embeds Python `str.startswith(p)` on strings `s`. -/
def strStarts (s p : String) : Bool := p.data.isPrefixOf s.data

/-- The text before the first `/`, i.e. `s.split("/", maxsplit=1)[0]`. -/
def beforeFirstSlash (s : String) : String := ⟨s.data.takeWhile (fun c => c != '/')⟩

/-- Whether `s.split("/", maxsplit=1)` has more than one part. -/
def containsSlash (s : String) : Bool := s.data.contains '/'

/-- Embeds `OpenRouterClient._guess_provider`. Returns `none` for the one
path where the Python code raises `IndexError`: the pre-slash text is
non-empty but whitespace-only, so `provider[0]` indexes an empty string.
The `name` argument does not affect the result (both arms of the final
Python conditional return "Other"). -/
def guessProvider (model_id name : String) : Option String :=
  let lower_id := pyLower model_id
  if strStarts lower_id "openai/" then some "OpenAI"
  else if strStarts lower_id "google/" then some "Google"
  else if strStarts lower_id "anthropic/" then some "Anthropic"
  else if strStarts lower_id "mistral" then some "Mistral"
  else if strStarts lower_id "meta-llama/" || strStarts lower_id "meta/" then some "Meta"
  else if strStarts lower_id "cohere/" then some "Cohere"
  else if strStarts lower_id "deepseek/" then some "DeepSeek"
  else if strStarts lower_id "qwen/" then some "Alibaba"
  else if strStarts lower_id "microsoft/" then some "Microsoft"
  else if strStarts lower_id "perplexity/" then some "Perplexity"
  else if containsSlash model_id && beforeFirstSlash model_id != "" then
    match (pyLower (pyStrip (beforeFirstSlash model_id))).data with
    | [] => none
    | c :: rest => some ⟨Char.toUpper c :: rest⟩
  else some "Other"

/-- The ordered fixed-rule table of provider inference, as data. -/
def providerRuleTable : List (String × String) :=
  [("openai/", "OpenAI"), ("google/", "Google"), ("anthropic/", "Anthropic"),
   ("mistral", "Mistral"), ("meta-llama/", "Meta"), ("meta/", "Meta"),
   ("cohere/", "Cohere"), ("deepseek/", "DeepSeek"), ("qwen/", "Alibaba"),
   ("microsoft/", "Microsoft"), ("perplexity/", "Perplexity")]

/-- Uppercase the first character of a string; fails on the empty string
(the `IndexError` case of `provider[0]`). -/
def capitalizeFirst (s : String) : Option String :=
  match s.data with
  | [] => none
  | c :: rest => some ⟨Char.toUpper c :: rest⟩

/-- Provider inference as the amended claim words it: first match in the
ordered rule table wins; otherwise, when the identifier contains `/` and
the text before the first `/` is non-empty, that text is whitespace-stripped
and lowercased and its first character uppercased (failing when stripping
leaves it empty); otherwise "Other". -/
def providerSpec (model_id name : String) : Option String :=
  match providerRuleTable.find? (fun r => strStarts (pyLower model_id) r.1) with
  | some r => some r.2
  | none =>
    if containsSlash model_id && beforeFirstSlash model_id != "" then
      capitalizeFirst (pyLower (pyStrip (beforeFirstSlash model_id)))
    else some "Other"

theorem guessProvider_agrees (id name : String) :
    guessProvider id name = providerSpec id name := by
  unfold guessProvider providerSpec providerRuleTable capitalizeFirst
  simp only [List.find?]
  cases h1 : strStarts (pyLower id) "openai/"
  case true => simp [h1]
  case false =>
  cases h2 : strStarts (pyLower id) "google/"
  case true => simp [h1, h2]
  case false =>
  cases h3 : strStarts (pyLower id) "anthropic/"
  case true => simp [h1, h2, h3]
  case false =>
  cases h4 : strStarts (pyLower id) "mistral"
  case true => simp [h1, h2, h3, h4]
  case false =>
  cases h5 : strStarts (pyLower id) "meta-llama/"
  case true => simp [h1, h2, h3, h4, h5]
  case false =>
  cases h6 : strStarts (pyLower id) "meta/"
  case true => simp [h1, h2, h3, h4, h5, h6]
  case false =>
  cases h7 : strStarts (pyLower id) "cohere/"
  case true => simp [h1, h2, h3, h4, h5, h6, h7]
  case false =>
  cases h8 : strStarts (pyLower id) "deepseek/"
  case true => simp [h1, h2, h3, h4, h5, h6, h7, h8]
  case false =>
  cases h9 : strStarts (pyLower id) "qwen/"
  case true => simp [h1, h2, h3, h4, h5, h6, h7, h8, h9]
  case false =>
  cases h10 : strStarts (pyLower id) "microsoft/"
  case true => simp [h1, h2, h3, h4, h5, h6, h7, h8, h9, h10]
  case false =>
  cases h11 : strStarts (pyLower id) "perplexity/"
  case true => simp [h1, h2, h3, h4, h5, h6, h7, h8, h9, h10, h11]
  case false => simp [h1, h2, h3, h4, h5, h6, h7, h8, h9, h10, h11]

/-- C6 counterexample: the claim says the fallback provider is the text
before the first `/` with its first character capitalized, hence
"MyVendor/model-x" would yield "MyVendor"; the code lowercases the whole
segment first and yields "Myvendor". -/
theorem guessProvider_counterexample :
    guessProvider "MyVendor/model-x" "MyVendor" = some "Myvendor" ∧
    ("Myvendor" : String) ≠ "MyVendor" := by
  constructor
  · decide
  · decide

/-- C6 (amended): provider inference returns the fixed provider of the first
matching rule of the ordered prefix table; otherwise, when the identifier
contains `/` and the text before the first `/` is non-empty, that text
whitespace-stripped and LOWERCASED with its first character then uppercased
(raising, modelled as `none`, when stripping leaves it empty); otherwise
"Other". In particular "openai/gpt-4" yields "OpenAI",
"custom-vendor/model-x" yields "Custom-vendor", and "standalone-model"
yields "Other". -/
theorem guessProvider_amended :
    (∀ id name, guessProvider id name = providerSpec id name) ∧
    guessProvider "openai/gpt-4" "gpt-4" = some "OpenAI" ∧
    guessProvider "custom-vendor/model-x" "model-x" = some "Custom-vendor" ∧
    guessProvider "standalone-model" "standalone-model" = some "Other" := by
  refine ⟨guessProvider_agrees, by decide, by decide, by decide⟩

/-- Embeds `ModelPricing` from `openrouter.py`. -/
structure ModelPricing where
  model : String
  input_price_per_token_usd : ℚ
  output_price_per_token_usd : ℚ
  cached_input_price_per_token_usd : Option ℚ := none
deriving DecidableEq

/-- Embeds `ModelCatalogEntry` from `openrouter.py`. -/
structure ModelCatalogEntry where
  id : String
  name : String
  provider : String
  context_window : ℤ
  input_price_per_token_usd : ℚ
  output_price_per_token_usd : ℚ
  cached_input_price_per_token_usd : Option ℚ := none
deriving DecidableEq

/-- Embeds `CachedModelCatalog` from `openrouter.py` (timestamp is a
`time.time()` reading, modelled as `ℚ`). -/
structure CachedModelCatalog where
  timestamp : ℚ
  models : List ModelCatalogEntry
deriving DecidableEq

/-- The pricing dict of a raw item: `item.get("pricing")` when it is a
dict, otherwise the empty dict (mirrors the `isinstance(pricing, dict)`
guard in `list_models`). -/
def pricingFields (fs : List (String × PyVal)) : List (String × PyVal) :=
  match pyGet fs "pricing" with
  | some (.vdict p) => p
  | _ => []

/-- The display name of a raw item: `item.get("name")` when it is a string,
otherwise the model id (mirrors the `isinstance(model_name, str)` guard). -/
def itemName (fs : List (String × PyVal)) (model_id : String) : String :=
  match pyGet fs "name" with
  | some (.vstr n _ _) => n
  | _ => model_id

/-- Embeds one iteration of the normalization loop in
`OpenRouterClient.list_models`: `.ok none` when the item is skipped
(`continue`), `.ok (some entry)` when an entry is appended, `.error ()`
when `_guess_provider` raises `IndexError`. -/
def normalizeItem (item : PyVal) : Except Unit (Option ModelCatalogEntry) :=
  match item with
  | .vdict fs =>
    match pyGet fs "id" with
    | some (.vstr model_id _ _) =>
      if model_id = "" then .ok none
      else
        let model_name := itemName fs model_id
        let pfs := pricingFields fs
        match guessProvider model_id model_name with
        | none => .error ()
        | some prov =>
          .ok (some
            { id := model_id
              name := model_name
              provider := prov
              context_window := parse_int (pyGet fs "context_length")
              input_price_per_token_usd := parse_price (pyGet pfs "prompt")
              output_price_per_token_usd := parse_price (pyGet pfs "completion")
              cached_input_price_per_token_usd :=
                match pyGet pfs "cached_prompt" with
                | none => none
                | some v => some (parse_price (some v)) })
    | _ => .ok none
  | _ => .ok none

/-- Embeds the whole normalization loop: the items in order, skipped items
dropped; an `IndexError` aborts the loop and propagates. -/
def normalizeItems : List PyVal → Except Unit (List ModelCatalogEntry)
  | [] => .ok []
  | item :: rest =>
    match normalizeItem item with
    | .error e => .error e
    | .ok none => normalizeItems rest
    | .ok (some entry) => (normalizeItems rest).map (entry :: ·)

/-- Every `_parse_price` result is non-negative. -/
theorem parse_price_nonneg (v : Option PyVal) : 0 ≤ parse_price v := by
  rcases v with _ | (_ | b | n | q | ⟨s, f, i⟩ | l | d) <;> simp only [parse_price]
  · norm_num
  · norm_num
  · cases b <;> norm_num
  · split
    · norm_num
    · next h => exact le_of_not_lt h
  · split
    · norm_num
    · next h => exact le_of_not_lt h
  · rcases f with _ | q
    · norm_num
    · simp only
      split
      · norm_num
      · next h => exact le_of_not_lt h
  · norm_num
  · norm_num

/-- Every `_parse_int` result is non-negative. -/
theorem parse_int_nonneg (v : Option PyVal) : 0 ≤ parse_int v := by
  rcases v with _ | (_ | b | n | q | ⟨s, f, i⟩ | l | d) <;> simp only [parse_int]
  · norm_num
  · norm_num
  · exact le_max_left 0 _
  · exact le_max_left 0 _
  · exact le_max_left 0 _
  · rcases i with _ | n
    · norm_num
    · exact le_max_left 0 _
  · norm_num
  · norm_num

/-- `dict.get` gives Python `None` exactly when the key is missing or the
stored value is JSON `null`. -/
theorem pyGet_eq_none_iff (fs : List (String × PyVal)) (k : String) :
    pyGet fs k = none ↔ rawGet fs k = none ∨ rawGet fs k = some .vnone := by
  unfold pyGet
  cases h : rawGet fs k with
  | none => simp
  | some v => cases v <;> simp

/-- `dict.get` never returns a Python `None` as a present value. -/
theorem pyGet_ne_vnone (fs : List (String × PyVal)) (k : String) (v : PyVal) :
    pyGet fs k = some v → v ≠ .vnone := by
  unfold pyGet
  cases hr : rawGet fs k with
  | none => intro hv; cases hv
  | some w =>
    cases w <;> intro hv <;> (try cases hv) <;> simp

/-- C8 counterexample: an item whose `pricing.cached_prompt` field is
PRESENT but `null` is normalized with an absent cached-input price, though
the claim allows absence only when the field is omitted entirely. -/
theorem normalizeItem_counterexample :
    normalizeItem (.vdict [("id", .vstr "m" none none),
        ("pricing", .vdict [("cached_prompt", .vnone)])])
      = .ok (some { id := "m", name := "m", provider := "Other",
                    context_window := 0, input_price_per_token_usd := 0,
                    output_price_per_token_usd := 0,
                    cached_input_price_per_token_usd := none }) ∧
    rawGet [("cached_prompt", PyVal.vnone)] "cached_prompt" = some .vnone := by
  constructor
  · rfl
  · rfl

/-- Inversion of the normalization loop body: an item that produces an
entry is a dict with a non-empty string id, and each entry field is the
parse of the corresponding raw field. -/
theorem normalizeItem_inv (fs : List (String × PyVal)) (e : ModelCatalogEntry)
    (h : normalizeItem (.vdict fs) = .ok (some e)) :
    e.id ≠ "" ∧
    e.input_price_per_token_usd = parse_price (pyGet (pricingFields fs) "prompt") ∧
    e.output_price_per_token_usd = parse_price (pyGet (pricingFields fs) "completion") ∧
    e.context_window = parse_int (pyGet fs "context_length") ∧
    e.cached_input_price_per_token_usd =
      (match pyGet (pricingFields fs) "cached_prompt" with
       | none => none
       | some v => some (parse_price (some v))) := by
  cases hid : pyGet fs "id" with
  | none => simp [normalizeItem, hid] at h
  | some v =>
    cases v <;> simp only [normalizeItem, hid] at h <;> try cases h
    next mid f i =>
      by_cases hm : mid = ""
      · simp [hm] at h
      · simp only [hm, if_false, if_neg hm] at h
        cases hg : guessProvider mid (itemName fs mid) with
        | none => rw [hg] at h; cases h
        | some prov =>
          rw [hg] at h
          cases h
          exact ⟨hm, rfl, rfl, rfl, rfl⟩

/-- C8 (amended): for every raw catalog item normalized into an entry, the
two price fields and the context window follow the non-negative parse rules
(failure/missing/negative prices give `0.0`; failing or missing context
gives `0`), and the cached-input price is absent exactly when the source
omits the `cached_prompt` field entirely OR the field is `null` (Python
cannot distinguish the two through `dict.get`); otherwise it is parsed
under the same non-negative price rule. -/
theorem normalizeItem_field_rules (fs : List (String × PyVal))
    (e : ModelCatalogEntry) (h : normalizeItem (.vdict fs) = .ok (some e)) :
    (0 ≤ e.input_price_per_token_usd ∧ 0 ≤ e.output_price_per_token_usd ∧
      0 ≤ e.context_window) ∧
    (e.input_price_per_token_usd = parse_price (pyGet (pricingFields fs) "prompt") ∧
      e.output_price_per_token_usd = parse_price (pyGet (pricingFields fs) "completion") ∧
      e.context_window = parse_int (pyGet fs "context_length")) ∧
    (e.cached_input_price_per_token_usd = none ↔
      rawGet (pricingFields fs) "cached_prompt" = none ∨
      rawGet (pricingFields fs) "cached_prompt" = some .vnone) ∧
    (∀ v, rawGet (pricingFields fs) "cached_prompt" = some v → v ≠ .vnone →
      e.cached_input_price_per_token_usd = some (parse_price (some v))) ∧
    (parse_price none = 0 ∧
      (∀ s i, parse_price (some (.vstr s none i)) = 0) ∧
      (∀ s i q, q < 0 → parse_price (some (.vstr s (some q) i)) = 0) ∧
      (∀ s i q, 0 ≤ q → ¬q < 0 → parse_price (some (.vstr s (some q) i)) = q) ∧
      parse_int none = 0 ∧
      (∀ s f, parse_int (some (.vstr s f none)) = 0)) := by
  have he := (normalizeItem_inv fs e h).2
  refine ⟨⟨?_, ?_, ?_⟩, ⟨he.1, he.2.1, he.2.2.1⟩, ?_, ?_, ?_⟩
  · rw [he.1]; exact parse_price_nonneg _
  · rw [he.2.1]; exact parse_price_nonneg _
  · rw [he.2.2.1]; exact parse_int_nonneg _
  · rw [he.2.2.2, ← pyGet_eq_none_iff]
    cases hcp : pyGet (pricingFields fs) "cached_prompt" <;> simp
  · intro v hv hvn
    rw [he.2.2.2]
    have : pyGet (pricingFields fs) "cached_prompt" = some v := by
      unfold pyGet
      rw [hv]
      cases v <;> simp_all
    rw [this]
  · refine ⟨rfl, fun s i => rfl, fun s i q hq => ?_, fun s i q hq hq' => ?_, rfl, fun s f => rfl⟩
    · simp [parse_price, hq]
    · simp [parse_price, hq']

deriving instance DecidableEq for Except

/-- A concrete raw item used to instantiate the C8 field rules. -/
def c8WitnessFields : List (String × PyVal) :=
  [("id", .vstr "m2" none none),
   ("pricing", .vdict [("prompt", .vstr "2" (some 2) (some 2))])]

/-- The entry the normalizer produces from `c8WitnessFields`. -/
def c8WitnessEntry : ModelCatalogEntry :=
  { id := "m2", name := "m2", provider := "Other", context_window := 0,
    input_price_per_token_usd := 2, output_price_per_token_usd := 0,
    cached_input_price_per_token_usd := none }

theorem normalizeItem_field_rules_witness :
    normalizeItem (.vdict c8WitnessFields) = .ok (some c8WitnessEntry) ∧
    ((0 ≤ c8WitnessEntry.input_price_per_token_usd ∧
        0 ≤ c8WitnessEntry.output_price_per_token_usd ∧
        0 ≤ c8WitnessEntry.context_window) ∧
      (c8WitnessEntry.input_price_per_token_usd
          = parse_price (pyGet (pricingFields c8WitnessFields) "prompt") ∧
        c8WitnessEntry.output_price_per_token_usd
          = parse_price (pyGet (pricingFields c8WitnessFields) "completion") ∧
        c8WitnessEntry.context_window
          = parse_int (pyGet c8WitnessFields "context_length")) ∧
      (c8WitnessEntry.cached_input_price_per_token_usd = none ↔
        rawGet (pricingFields c8WitnessFields) "cached_prompt" = none ∨
        rawGet (pricingFields c8WitnessFields) "cached_prompt" = some .vnone) ∧
      (∀ v, rawGet (pricingFields c8WitnessFields) "cached_prompt" = some v →
        v ≠ .vnone →
        c8WitnessEntry.cached_input_price_per_token_usd
          = some (parse_price (some v))) ∧
      (parse_price none = 0 ∧
        (∀ s i, parse_price (some (.vstr s none i)) = 0) ∧
        (∀ s i q, q < 0 → parse_price (some (.vstr s (some q) i)) = 0) ∧
        (∀ s i q, 0 ≤ q → ¬q < 0 → parse_price (some (.vstr s (some q) i)) = q) ∧
        parse_int none = 0 ∧
        (∀ s f, parse_int (some (.vstr s f none)) = 0))) :=
  ⟨by decide, normalizeItem_field_rules c8WitnessFields c8WitnessEntry (by decide)⟩

/-- Embeds the client-owned mutable state of `OpenRouterClient`: the cache
slot and the clamped TTL set in `__init__`
(`self._cache_ttl_seconds = max(0, cache_ttl_seconds)`). -/
structure ClientState where
  cache : Option CachedModelCatalog
  cacheTtlSeconds : ℤ
deriving DecidableEq

/-- Embeds `OpenRouterClient.__init__`: empty cache, clamped TTL. -/
def mkClient (cache_ttl_seconds : ℤ) : ClientState :=
  ⟨none, max 0 cache_ttl_seconds⟩

/-- An error escaping `list_models`: `openRouter` for `OpenRouterError`
(transport failure, malformed response, or non-array `data`), `pyIndex`
for the `IndexError` that `_guess_provider` can raise. -/
inductive LMErr where
  | openRouter
  | pyIndex
deriving DecidableEq

/-- The outcome of one `list_models` call: the returned value or escaping
error, the value of the cache slot afterwards, and whether a remote fetch
was attempted (whether the `try` block was entered). -/
structure LMOut where
  result : Except LMErr (List ModelCatalogEntry)
  cache : Option CachedModelCatalog
  fetched : Bool

/-- Embeds the body of the `try`/`except` of `list_models`: the fetch
oracle stands for `_get_json` (`.error` = `OpenRouterError` raised there;
`.ok` = the payload's fields). A non-array `data` raises `OpenRouterError`
inside the `try`, so it is caught by the same `except` clause and falls
back to the cache exactly like a transport failure. On success the cache
is replaced wholesale; on `IndexError` nothing is caught and the cache is
left untouched. -/
def fetchAndUpdate (cache : Option CachedModelCatalog) (now : ℚ)
    (fetch : Except Unit (List (String × PyVal))) : LMOut :=
  match fetch with
  | .error _ =>
    match cache with
    | some c => ⟨.ok c.models, some c, true⟩
    | none => ⟨.error .openRouter, none, true⟩
  | .ok payload =>
    match pyGetD payload "data" (.vlist []) with
    | .vlist items =>
      match normalizeItems items with
      | .error _ => ⟨.error .pyIndex, cache, true⟩
      | .ok models => ⟨.ok models, some ⟨now, models⟩, true⟩
    | _ =>
      match cache with
      | some c => ⟨.ok c.models, some c, true⟩
      | none => ⟨.error .openRouter, none, true⟩

/-- Embeds `OpenRouterClient.list_models`: serve the cache when it exists,
is fresh (`now - timestamp < ttl`, strict) and no refresh is forced;
otherwise fetch. -/
def list_models (st : ClientState) (now : ℚ) (force_refresh : Bool)
    (fetch : Except Unit (List (String × PyVal))) : LMOut :=
  match st.cache with
  | some c =>
    if (now - c.timestamp) < (st.cacheTtlSeconds : ℚ) ∧ force_refresh = false then
      ⟨.ok c.models, some c, false⟩
    else fetchAndUpdate (some c) now fetch
  | none => fetchAndUpdate none now fetch

/-- Every path through the `try`/`except` of `list_models` counts as a
fetch attempt. -/
theorem fetchAndUpdate_fetched (cache : Option CachedModelCatalog) (now : ℚ)
    (fetch : Except Unit (List (String × PyVal))) :
    (fetchAndUpdate cache now fetch).fetched = true := by
  rcases fetch with e | payload <;> dsimp only [fetchAndUpdate]
  · cases cache <;> rfl
  · cases hd : pyGetD payload "data" (.vlist [])
    case vlist items =>
      dsimp only
      cases hn : normalizeItems items <;> rfl
    all_goals cases cache <;> rfl

/-- C2: whenever `list_models` performs a fetch that fails (for any state
and any `force_refresh`), a populated cache — fresh or stale — is returned
with the cache slot unchanged, and with no previous cache the error
propagates to the caller. -/
theorem list_models_fetch_failure (st : ClientState) (now : ℚ) (force : Bool)
    (hfetched : (list_models st now force (.error ())).fetched = true) :
    (∀ c, st.cache = some c →
      (list_models st now force (.error ())).result = .ok c.models ∧
      (list_models st now force (.error ())).cache = some c) ∧
    (st.cache = none →
      (list_models st now force (.error ())).result = .error .openRouter ∧
      (list_models st now force (.error ())).cache = none) := by
  obtain ⟨cache, ttl⟩ := st
  cases cache with
  | none =>
    refine ⟨fun c hc => ?_, fun _ => ⟨rfl, rfl⟩⟩
    cases hc
  | some c =>
    refine ⟨fun c' hc' => ?_, fun h0 => ?_⟩
    · replace hc' : some c = some c' := hc'
      cases hc'
      by_cases hcond : (now - c.timestamp) < (ttl : ℚ) ∧ force = false
      · exfalso
        have hf : (list_models ⟨some c, ttl⟩ now force (.error ())).fetched = false := by
          simp [list_models, hcond]
        rw [hf] at hfetched
        cases hfetched
      · constructor <;> simp [list_models, hcond, fetchAndUpdate]
    · cases h0

/-- A concrete catalog entry shared by the state-machine witnesses. -/
def sampleEntry : ModelCatalogEntry :=
  { id := "openai/gpt-4", name := "GPT-4", provider := "OpenAI",
    context_window := 8192, input_price_per_token_usd := 2,
    output_price_per_token_usd := 3,
    cached_input_price_per_token_usd := none }

/-- A populated client state whose TTL is 0, so its cache is always stale. -/
def c2State : ClientState := ⟨some ⟨0, [sampleEntry]⟩, 0⟩

theorem list_models_fetch_failure_witness :
    (list_models c2State 1 false (.error ())).fetched = true ∧
    ((∀ c, c2State.cache = some c →
        (list_models c2State 1 false (.error ())).result = .ok c.models ∧
        (list_models c2State 1 false (.error ())).cache = some c) ∧
      (c2State.cache = none →
        (list_models c2State 1 false (.error ())).result = .error .openRouter ∧
        (list_models c2State 1 false (.error ())).cache = none)) :=
  ⟨by norm_num [c2State, list_models, fetchAndUpdate],
    list_models_fetch_failure c2State 1 false
      (by norm_num [c2State, list_models, fetchAndUpdate])⟩

/-- C4: with a populated cache strictly younger than the TTL and no forced
refresh, `list_models` performs no remote fetch (the outcome is the same
for every fetch oracle, with `fetched = false`), leaves the cache slot
unchanged, and returns exactly the cached models sequence. -/
theorem list_models_fresh_serves_cache (st : ClientState)
    (c : CachedModelCatalog) (now : ℚ) (hc : st.cache = some c)
    (hfresh : now - c.timestamp < (st.cacheTtlSeconds : ℚ))
    (fetch : Except Unit (List (String × PyVal))) :
    list_models st now false fetch = ⟨.ok c.models, some c, false⟩ := by
  obtain ⟨cache, ttl⟩ := st
  simp only at hc hfresh
  subst hc
  simp [list_models, hfresh]

/-- A populated client state with a long TTL, cached at time 10. -/
def c4State : ClientState := ⟨some ⟨10, [sampleEntry]⟩, 3600⟩

theorem list_models_fresh_serves_cache_witness :
    c4State.cache = some ⟨10, [sampleEntry]⟩ ∧
    (11 : ℚ) - (10 : ℚ) < ((3600 : ℤ) : ℚ) ∧
    list_models c4State 11 false (.error ())
      = ⟨.ok [sampleEntry], some ⟨10, [sampleEntry]⟩, false⟩ :=
  ⟨rfl, by norm_num,
    list_models_fresh_serves_cache c4State ⟨10, [sampleEntry]⟩ 11 rfl
      (by norm_num [c4State]) (.error ())⟩

/-- C10: constructing the client with a non-positive TTL clamps the TTL to
0, and then no cache whose timestamp is not in the future is ever fresh:
every `list_models` call attempts a remote fetch, and on fetch failure the
cache serves only as the fallback. -/
theorem mkClient_nonpos_ttl_always_fetches (ttlIn : ℤ) (h0 : ttlIn ≤ 0)
    (cache : Option CachedModelCatalog) (now : ℚ)
    (hts : ∀ c, cache = some c → c.timestamp ≤ now)
    (force : Bool) (fetch : Except Unit (List (String × PyVal))) :
    (mkClient ttlIn).cacheTtlSeconds = 0 ∧
    (list_models ⟨cache, (mkClient ttlIn).cacheTtlSeconds⟩ now force fetch).fetched
      = true ∧
    (∀ c, cache = some c →
      (list_models ⟨cache, (mkClient ttlIn).cacheTtlSeconds⟩ now force
        (.error ())).result = .ok c.models) := by
  have httl : (mkClient ttlIn).cacheTtlSeconds = 0 := by
    simp [mkClient, max_eq_left h0]
  refine ⟨httl, ?_, ?_⟩
  · rw [httl]
    cases cache with
    | none =>
      dsimp only [list_models]
      exact fetchAndUpdate_fetched none now fetch
    | some c =>
      have hnotfresh : ¬((now - c.timestamp) < ((0 : ℤ) : ℚ) ∧ force = false) := by
        rintro ⟨hlt, -⟩
        have hcn := hts c rfl
        push_cast at hlt
        linarith
      simp only [list_models, if_neg hnotfresh]
      exact fetchAndUpdate_fetched (some c) now fetch
  · intro c hc
    subst hc
    rw [httl]
    dsimp only [list_models]
    split <;> simp [fetchAndUpdate]

theorem mkClient_nonpos_ttl_always_fetches_witness :
    (-5 : ℤ) ≤ 0 ∧
    ((mkClient (-5)).cacheTtlSeconds = 0 ∧
      (list_models ⟨some ⟨0, [sampleEntry]⟩, (mkClient (-5)).cacheTtlSeconds⟩ 1 false
        (.error ())).fetched = true ∧
      (∀ c, (some ⟨0, [sampleEntry]⟩ : Option CachedModelCatalog) = some c →
        (list_models ⟨some ⟨0, [sampleEntry]⟩, (mkClient (-5)).cacheTtlSeconds⟩ 1 false
          (.error ())).result = .ok c.models)) :=
  ⟨by norm_num,
    mkClient_nonpos_ttl_always_fetches (-5) (by norm_num) (some ⟨0, [sampleEntry]⟩) 1
      (fun c hc => by cases hc; norm_num) false (.error ())⟩

/-- An error escaping `get_model_pricing`: the two `list_models` errors
plus `ModelNotFound` (the `OpenRouterError` raised after the scan). -/
inductive GPErr where
  | openRouter
  | pyIndex
  | modelNotFound
deriving DecidableEq

/-- An error of `list_models` seen by a caller of `get_model_pricing`. -/
def liftLMErr : LMErr → GPErr
  | .openRouter => .openRouter
  | .pyIndex => .pyIndex

/-- Embeds `OpenRouterClient.get_model_pricing`: one `list_models()` call
(no forced refresh), then an exact, case-sensitive linear scan for the
first entry with the requested id; raises "not found" when none matches.
Returns the call's outcome together with the cache slot afterwards. -/
def get_model_pricing (st : ClientState) (now : ℚ)
    (fetch : Except Unit (List (String × PyVal))) (model : String) :
    Except GPErr ModelPricing × Option CachedModelCatalog :=
  match list_models st now false fetch with
  | ⟨.error e, cache, _⟩ => (.error (liftLMErr e), cache)
  | ⟨.ok models, cache, _⟩ =>
    match models.find? (fun item => item.id == model) with
    | some item =>
      (.ok ⟨item.id, item.input_price_per_token_usd,
        item.output_price_per_token_usd,
        item.cached_input_price_per_token_usd⟩, cache)
    | none => (.error .modelNotFound, cache)

/-- Embeds `OpenRouterClient.estimate_model_cost`: resolve pricing, then
delegate to the cost calculator. -/
def estimate_model_cost (st : ClientState) (now : ℚ)
    (fetch : Except Unit (List (String × PyVal))) (model : String)
    (usage : TokenUsage) :
    Except GPErr CostBreakdown × Option CachedModelCatalog :=
  match get_model_pricing st now fetch model with
  | (.error e, cache) => (.error e, cache)
  | (.ok pricing, cache) =>
    (.ok (estimate_cost model usage pricing.input_price_per_token_usd
      pricing.output_price_per_token_usd
      pricing.cached_input_price_per_token_usd), cache)

/-- A successful `find?` splits its list at the first hit. -/
theorem findFirstSplit {α : Type} (p : α → Bool) (l : List α) (a : α)
    (h : l.find? p = some a) :
    ∃ l1 l2, l = l1 ++ a :: l2 ∧ p a = true ∧ ∀ x ∈ l1, p x = false := by
  induction l with
  | nil => cases h
  | cons x xs ih =>
    by_cases hp : p x = true
    · rw [List.find?_cons_of_pos _ hp] at h
      injection h with h2
      subst h2
      exact ⟨[], xs, rfl, hp, fun y hy => absurd hy (List.not_mem_nil y)⟩
    · rw [Bool.not_eq_true] at hp
      rw [List.find?_cons_of_neg _ (by simp [hp])] at h
      obtain ⟨l1, l2, heq, hpa, hall⟩ := ih h
      refine ⟨x :: l1, l2, by rw [heq, List.cons_append], hpa, ?_⟩
      intro y hy
      rcases List.mem_cons.mp hy with h1 | h1
      · rw [h1]; exact hp
      · exact hall y h1

/-- C5: given any catalog that `list_models` resolves to,
`get_model_pricing` raises "not found" exactly when no entry's id equals
the requested one (case-sensitively, and regardless of the cache state:
the error is never replaced by cached data); a successful result is the
pricing of the FIRST exactly-matching entry; and whenever a matching entry
exists, the result is a success. -/
theorem get_model_pricing_first_match (st : ClientState) (now : ℚ)
    (fetch : Except Unit (List (String × PyVal))) (model : String)
    (models : List ModelCatalogEntry)
    (h : (list_models st now false fetch).result = .ok models) :
    ((get_model_pricing st now fetch model).1 = .error .modelNotFound ↔
      ∀ e ∈ models, e.id ≠ model) ∧
    (∀ p, (get_model_pricing st now fetch model).1 = .ok p →
      ∃ l1 e l2, models = l1 ++ e :: l2 ∧ e.id = model ∧
        (∀ x ∈ l1, x.id ≠ model) ∧
        p = ⟨e.id, e.input_price_per_token_usd, e.output_price_per_token_usd,
          e.cached_input_price_per_token_usd⟩) ∧
    ((∃ e ∈ models, e.id = model) →
      ∃ p, (get_model_pricing st now fetch model).1 = .ok p) := by
  cases hlm : list_models st now false fetch with
  | mk result cache fetched =>
    rw [hlm] at h
    dsimp only at h
    subst h
    have hgm : get_model_pricing st now fetch model =
        (match models.find? (fun item => item.id == model) with
         | some item =>
           (.ok ⟨item.id, item.input_price_per_token_usd,
             item.output_price_per_token_usd,
             item.cached_input_price_per_token_usd⟩, cache)
         | none => (.error .modelNotFound, cache)) := by
      unfold get_model_pricing
      rw [hlm]
    rw [hgm]
    cases hf : models.find? (fun item => item.id == model) with
    | none =>
      dsimp only
      have hnone := List.find?_eq_none.mp hf
      refine ⟨?_, ?_, ?_⟩
      · refine ⟨fun _ e he => ?_, fun _ => rfl⟩
        have := hnone e he
        simpa using this
      · intro p hp
        simp at hp
      · intro hex
        obtain ⟨e, he, heq⟩ := hex
        have := hnone e he
        simp [heq] at this
    | some item =>
      dsimp only
      obtain ⟨l1, l2, heq, hpa, hall⟩ := findFirstSplit _ models item hf
      have hid : item.id = model := by simpa using hpa
      refine ⟨?_, ?_, ?_⟩
      · refine ⟨fun hcon => ?_, fun hno => ?_⟩
        · simp at hcon
        · exfalso
          have hmem : item ∈ models := by
            rw [heq]
            exact List.mem_append.mpr (Or.inr (List.mem_cons_self item l2))
          exact hno item hmem hid
      · intro p hp
        injection hp with hp2
        refine ⟨l1, item, l2, heq, hid, fun x hx => ?_, hp2.symm⟩
        have := hall x hx
        simpa using this
      · exact fun _ => ⟨_, rfl⟩

/-- A populated, fresh client state used to instantiate C5. -/
def c5State : ClientState := ⟨some ⟨0, [sampleEntry]⟩, 3600⟩

theorem get_model_pricing_first_match_witness :
    (list_models c5State 0 false (.error ())).result = .ok [sampleEntry] ∧
    (((get_model_pricing c5State 0 (.error ()) "nonexistent/model").1
        = .error .modelNotFound ↔
      ∀ e ∈ [sampleEntry], e.id ≠ "nonexistent/model") ∧
    (∀ p, (get_model_pricing c5State 0 (.error ()) "nonexistent/model").1 = .ok p →
      ∃ l1 e l2, [sampleEntry] = l1 ++ e :: l2 ∧ e.id = "nonexistent/model" ∧
        (∀ x ∈ l1, x.id ≠ "nonexistent/model") ∧
        p = ⟨e.id, e.input_price_per_token_usd, e.output_price_per_token_usd,
          e.cached_input_price_per_token_usd⟩) ∧
    ((∃ e ∈ [sampleEntry], e.id = "nonexistent/model") →
      ∃ p, (get_model_pricing c5State 0 (.error ()) "nonexistent/model").1 = .ok p)) :=
  ⟨by norm_num [c5State, list_models],
    get_model_pricing_first_match c5State 0 (.error ()) "nonexistent/model"
      [sampleEntry] (by norm_num [c5State, list_models])⟩

/-- The well-formedness of one cached catalog entry: non-empty id,
non-negative prices and context window, absent-or-non-negative cached
price. -/
def ValidEntry (e : ModelCatalogEntry) : Prop :=
  e.id ≠ "" ∧ 0 ≤ e.input_price_per_token_usd ∧
    0 ≤ e.output_price_per_token_usd ∧ 0 ≤ e.context_window ∧
    ∀ q ∈ e.cached_input_price_per_token_usd, 0 ≤ q

/-- The cache invariant: absent, or every entry well-formed. -/
def ValidCache : Option CachedModelCatalog → Prop
  | none => True
  | some c => ∀ e ∈ c.models, ValidEntry e

/-- Every entry the normalizer emits is well-formed. -/
theorem normalizeItem_valid (item : PyVal) (e : ModelCatalogEntry)
    (h : normalizeItem item = .ok (some e)) : ValidEntry e := by
  cases item <;> try cases h
  next fs =>
    obtain ⟨hid, hi, ho, hcw, hcp⟩ := normalizeItem_inv fs e h
    refine ⟨hid, ?_, ?_, ?_, ?_⟩
    · rw [hi]; exact parse_price_nonneg _
    · rw [ho]; exact parse_price_nonneg _
    · rw [hcw]; exact parse_int_nonneg _
    · intro q hq
      rw [hcp] at hq
      cases hv : pyGet (pricingFields fs) "cached_prompt" with
      | none => rw [hv] at hq; cases hq
      | some v =>
        rw [hv] at hq
        dsimp only at hq
        injection hq with hq2
        rw [← hq2]
        exact parse_price_nonneg _

/-- Every entry the normalization loop emits is well-formed. -/
theorem normalizeItems_valid (items : List PyVal)
    (models : List ModelCatalogEntry) (h : normalizeItems items = .ok models) :
    ∀ e ∈ models, ValidEntry e := by
  induction items generalizing models with
  | nil =>
    injection h with h2
    subst h2
    intro e he
    cases he
  | cons item rest ih =>
    dsimp only [normalizeItems] at h
    cases hi : normalizeItem item with
    | error e0 => rw [hi] at h; cases h
    | ok oe =>
      rw [hi] at h
      cases oe with
      | none => exact ih models h
      | some entry =>
        cases hr : normalizeItems rest with
        | error e0 => rw [hr] at h; cases h
        | ok ms =>
          rw [hr] at h
          dsimp only [Except.map] at h
          injection h with h2
          subst h2
          intro e he
          rcases List.mem_cons.mp he with h1 | h1
          · rw [h1]; exact normalizeItem_valid item entry hi
          · exact ih ms hr e h1

/-- One fetch attempt preserves the cache invariant. -/
theorem fetchAndUpdate_preserves_valid (cache : Option CachedModelCatalog)
    (now : ℚ) (fetch : Except Unit (List (String × PyVal)))
    (hv : ValidCache cache) :
    ValidCache (fetchAndUpdate cache now fetch).cache := by
  rcases fetch with e | payload <;> dsimp only [fetchAndUpdate]
  · cases cache with
    | none => trivial
    | some c => exact hv
  · cases hd : pyGetD payload "data" (.vlist [])
    case vlist items =>
      dsimp only
      cases hn : normalizeItems items with
      | error e0 => exact hv
      | ok models => exact normalizeItems_valid items models hn
    all_goals
      cases cache with
      | none => trivial
      | some c => exact hv

/-- One `list_models` call preserves the cache invariant. -/
theorem list_models_preserves_valid (st : ClientState) (now : ℚ)
    (force : Bool) (fetch : Except Unit (List (String × PyVal)))
    (hv : ValidCache st.cache) :
    ValidCache (list_models st now force fetch).cache := by
  obtain ⟨cache, ttl⟩ := st
  cases cache with
  | none =>
    dsimp only [list_models]
    exact fetchAndUpdate_preserves_valid none now fetch hv
  | some c =>
    dsimp only [list_models]
    split
    · exact hv
    · exact fetchAndUpdate_preserves_valid (some c) now fetch hv

/-- The cache slots reachable from a fresh client by any sequence of
`list_models` calls. `get_model_pricing` and `estimate_model_cost` mutate
the cache only through their inner `list_models()` call (with
`force_refresh = false`), so their steps are instances of `step`. -/
inductive ReachableCache (ttlIn : ℤ) : Option CachedModelCatalog → Prop where
  | init : ReachableCache ttlIn (mkClient ttlIn).cache
  | step (cache : Option CachedModelCatalog) (now : ℚ) (force : Bool)
      (fetch : Except Unit (List (String × PyVal))) :
      ReachableCache ttlIn cache →
      ReachableCache ttlIn
        (list_models ⟨cache, (mkClient ttlIn).cacheTtlSeconds⟩ now force fetch).cache

/-- C9: in every reachable client state the cache is absent or every
cached entry has a non-empty id, non-negative prices and context window,
and an absent-or-non-negative cached-input price (items that are not dicts
or lack a valid id never enter the cache). -/
theorem reachable_cache_valid (ttlIn : ℤ) (cache : Option CachedModelCatalog)
    (h : ReachableCache ttlIn cache) : ValidCache cache := by
  induction h with
  | init => trivial
  | step cache now force fetch hr ih =>
    exact list_models_preserves_valid ⟨cache, (mkClient ttlIn).cacheTtlSeconds⟩
      now force fetch ih

/-- A concrete payload whose normalization fills the cache. -/
def c9Payload : List (String × PyVal) :=
  [("data", .vlist [.vdict [("id", .vstr "openai/gpt-4" none none)]])]

theorem reachable_cache_valid_witness :
    ReachableCache 3600
      (list_models ⟨none, (mkClient 3600).cacheTtlSeconds⟩ 5 false
        (.ok c9Payload)).cache ∧
    ValidCache
      (list_models ⟨none, (mkClient 3600).cacheTtlSeconds⟩ 5 false
        (.ok c9Payload)).cache :=
  ⟨ReachableCache.step none 5 false (.ok c9Payload) ReachableCache.init,
    reachable_cache_valid 3600 _
      (ReachableCache.step none 5 false (.ok c9Payload) ReachableCache.init)⟩
